import Mathlib

/-! Message handler and dependency container of httpsms.

A shallow embedding of

* `api/pkg/handlers/message_handler.go` (`MessageHandler.PostSend`,
  `MessageHandler.GetOutstanding`), and
* `api/pkg/di/container.go` (`Container` and its resolver methods).

A handler run is embedded as the chronological list of the observable steps
the Go function performs (parser call, validator call, log entries, service
call, pointer dereferences, response helper call).  The collaborators that
live in other packages (`requests`, `validators`, `services`, the embedded
`handler` helper struct, `fiber.Ctx`) are fields of `Handlers.Env`.

A container method is embedded as a function of the world: the `Container`
struct, a heap counter for the pointers handed out by constructors, and the
chronological list of the steps taken (log lines, constructor calls of other
packages, `Subscribe` calls).  `container.logger.Fatal` ends the run.
-/

namespace HttpSms

namespace Handlers

/-- Levels of `telemetry.Logger` used by the handlers. -/
inductive Level where
  | Warn
  | Error
  deriving DecidableEq, Repr

/-- The four response helpers of the embedded `handler` struct, as they are
called by `MessageHandler`: `responseBadRequest(c, err)`,
`responseUnprocessableEntity(c, errors, message)`,
`responseInternalServerError(c)` and `responseOK(c, message, data)`. -/
inductive Response (Err VE Data : Type) where
  | BadRequest (err : Err)
  | UnprocessableEntity (errors : List VE) (message : String)
  | InternalServerError
  | OK (message : String) (data : Data)
  deriving DecidableEq, Repr

/-- One observable step of a handler run.  `Data` is the pointer type the
service returns (`none` is the nil pointer). -/
inductive Effect (Req Params Err VE Data : Type) where
  /-- The call `h.tracer.StartFromFiberCtx(c)` -/
  | SpanStart
  /-- The call `c.BodyParser(&request)` or `c.QueryParser(&request)`, with the error it returned -/
  | Parse (err : Option Err)
  /-- the validator is invoked on `request` -/
  | Validate (request : Req)
  /-- A call of `ctxLogger.Warn` or `ctxLogger.Error`; `cause` is the error wrapped by
  `stacktrace.Propagate` (`none` for `stacktrace.NewError`) -/
  | Log (level : Level) (cause : Option Err) (msg : String)
  /-- the service method is invoked with `params` -/
  | Service (params : Params)
  /-- the pointer returned by the service is dereferenced -/
  | Deref (ptr : Data)
  /-- nil pointer dereference: the goroutine panics -/
  | NilPanic
  /-- a response helper is called -/
  | Respond (r : Response Err VE Data)
  /-- the deferred `span.End()` -/
  | SpanEnd
  deriving DecidableEq, Repr

/-- Everything `MessageHandler.PostSend` and `MessageHandler.GetOutstanding`
consume from outside `message_handler.go`.

* `Body`, `OriginalURL`, `BodyParser`, `QueryParser`: the `fiber.Ctx` of the
  request.  A parser fills the zero-valued request and returns an error
  (`none` is nil).
* `ValidateMessageSend`, `ValidateMessageOutstanding`: the
  `validators.MessageHandlerValidator`.
* `Sanitize`, `ToMessageSendParams`, `ToGetOutstandingParams`: methods of the
  request types.  `Sanitize` is called on the addressable local variable
  `request`; it yields the value it returns together with the value the
  variable holds afterwards (for a value receiver the latter is the argument
  itself, for a pointer receiver it is whatever the method stored).
* `SendMessage`, `GetOutstanding`: the `services.MessageService`; each returns
  a pointer and an error.
* `pluralize`: helper of the embedded `handler` struct.
* `Sdump`: `spew.Sdump` on the validation errors. -/
structure Env (MS MO SP GP Msg Err VE : Type) where
  Body : String
  OriginalURL : String
  BodyParser : MS × Option Err
  QueryParser : MO × Option Err
  ValidateMessageSend : MS → List VE
  ValidateMessageOutstanding : MO → List VE
  Sanitize : MO → MO × MO
  ToMessageSendParams : MS → String → SP
  ToGetOutstandingParams : MO → String → GP
  SendMessage : SP → Option Msg × Option Err
  GetOutstanding : GP → Option (List Msg) × Option Err
  pluralize : String → Nat → String
  Sdump : List VE → String

variable {MS MO SP GP Msg Err VE : Type}

/-- The body of `MessageHandler.PostSend` between `StartFromFiberCtx` and the
deferred `span.End()`. -/
def PostSendBody (h : Env MS MO SP GP Msg Err VE) :
    List (Effect MS SP Err VE (Option Msg)) :=
  match h.BodyParser with
  | (_, some err) =>
    [.Parse (some err),
     .Log .Warn (some err) ("cannot marshall [" ++ h.Body ++ "] into requests.MessageSend"),
     .Respond (.BadRequest err)]
  | (request, none) =>
    let errors := h.ValidateMessageSend request
    if errors.length != 0 then
      [.Parse none,
       .Validate request,
       .Log .Warn none
         ("validation errors [" ++ h.Sdump errors ++ "], while sending payload [" ++ h.Body ++ "]"),
       .Respond (.UnprocessableEntity errors "validation errors while sending message")]
    else
      let params := h.ToMessageSendParams request h.OriginalURL
      match h.SendMessage params with
      | (_, some err) =>
        [.Parse none,
         .Validate request,
         .Service params,
         .Log .Error (some err) ("cannot send message with paylod [" ++ h.Body ++ "]"),
         .Respond .InternalServerError]
      | (message, none) =>
        [.Parse none,
         .Validate request,
         .Service params,
         .Respond (.OK "message added to queue" message)]

/-- The handler `MessageHandler.PostSend`. -/
def PostSend (h : Env MS MO SP GP Msg Err VE) :
    List (Effect MS SP Err VE (Option Msg)) :=
  [.SpanStart] ++ PostSendBody h ++ [.SpanEnd]

/-- The last statement of `MessageHandler.GetOutstanding`:
`h.responseOK(c, fmt.Sprintf("fetch %d %s", len(*messages),
h.pluralize("message", len(*messages))), messages)`.  The arguments are
evaluated left to right, so `messages` is dereferenced twice before the
helper is called; dereferencing nil panics. -/
def GetOutstandingOK (h : Env MS MO SP GP Msg Err VE) (messages : Option (List Msg)) :
    List (Effect MO GP Err VE (Option (List Msg))) :=
  match messages with
  | none => [.Deref none, .NilPanic]
  | some l =>
    [.Deref (some l),
     .Deref (some l),
     .Respond (.OK ("fetch " ++ toString l.length ++ " " ++ h.pluralize "message" l.length)
        (some l))]

/-- The body of `MessageHandler.GetOutstanding` between `StartFromFiberCtx`
and the deferred `span.End()`. -/
def GetOutstandingBody (h : Env MS MO SP GP Msg Err VE) :
    List (Effect MO GP Err VE (Option (List Msg))) :=
  match h.QueryParser with
  | (_, some err) =>
    [.Parse (some err),
     .Log .Warn (some err)
       ("cannot marshall params [" ++ h.OriginalURL ++ "] into requests.MessageOutstanding"),
     .Respond (.BadRequest err)]
  | (parsed, none) =>
    let sanitized := (h.Sanitize parsed).1
    let request := (h.Sanitize parsed).2
    let errors := h.ValidateMessageOutstanding sanitized
    if errors.length != 0 then
      [.Parse none,
       .Validate sanitized,
       .Log .Warn none
         ("validation errors [" ++ h.Sdump errors ++ "], while fetching outstanding messages ["
            ++ h.OriginalURL ++ "]"),
       .Respond (.UnprocessableEntity errors
          "validation errors while fetching outstanding messages")]
    else
      let params := h.ToGetOutstandingParams request h.OriginalURL
      match h.GetOutstanding params with
      | (_, some err) =>
        [.Parse none,
         .Validate sanitized,
         .Service params,
         .Log .Error (some err) ("cannot get messgaes with URL [" ++ h.OriginalURL ++ "]"),
         .Respond .InternalServerError]
      | (messages, none) =>
        [.Parse none, .Validate sanitized, .Service params] ++ GetOutstandingOK h messages

/-- The handler `MessageHandler.GetOutstanding`. -/
def GetOutstanding (h : Env MS MO SP GP Msg Err VE) :
    List (Effect MO GP Err VE (Option (List Msg))) :=
  [.SpanStart] ++ GetOutstandingBody h ++ [.SpanEnd]

section Observers

variable {Req Params Data : Type}

/-- The responses written during a run, in order. -/
def responses (t : List (Effect Req Params Err VE Data)) : List (Response Err VE Data) :=
  t.filterMap fun e => match e with
    | .Respond r => some r
    | _ => none

/-- The parameters of the service invocations of a run, in order. -/
def serviceCalls (t : List (Effect Req Params Err VE Data)) : List Params :=
  t.filterMap fun e => match e with
    | .Service p => some p
    | _ => none

/-- The log entries of a run, in order. -/
def logs (t : List (Effect Req Params Err VE Data)) : List (Level × Option Err × String) :=
  t.filterMap fun e => match e with
    | .Log l c m => some (l, c, m)
    | _ => none

/-- The pointers dereferenced during a run, in order. -/
def derefs (t : List (Effect Req Params Err VE Data)) : List Data :=
  t.filterMap fun e => match e with
    | .Deref p => some p
    | _ => none

/-- Whether the run ends in a nil-pointer panic. -/
def panics (t : List (Effect Req Params Err VE Data)) : Bool :=
  t.any fun e => match e with
    | .NilPanic => true
    | _ => false

end Observers

/-- A small instance of the collaborators, used to run the handlers on
concrete requests: a send request is its content, an outstanding request is
its `take` (0 when the query leaves it out), `Sanitize` has a pointer
receiver and stores the default 1 for a missing `take`, the validator accepts
a non-empty content and a `take` from 1 to 10, and the service fails when
`down` is set. -/
def sampleEnv (bodyErr queryErr : Option String) (content : String) (take : Int)
    (down : Bool) : Env String Int (String × String) (String × Int) String String String where
  Body := content
  OriginalURL := "/v1/messages"
  BodyParser := (content, bodyErr)
  QueryParser := (take, queryErr)
  ValidateMessageSend := fun c => if c = "" then ["content is required"] else []
  ValidateMessageOutstanding := fun t =>
    if 1 ≤ t ∧ t ≤ 10 then [] else ["take must be between 1 and 10"]
  Sanitize := fun t => if t = 0 then (1, 1) else (t, t)
  ToMessageSendParams := fun c url => (url, c)
  ToGetOutstandingParams := fun t url => (url, t)
  SendMessage := fun p => if down then (none, some "store down") else (some p.2, none)
  GetOutstanding := fun p =>
    if down then (none, some "store down") else (some (List.replicate p.2.toNat "sms"), none)
  pluralize := fun w n => if n = 1 then w else w ++ "s"
  Sdump := fun es => String.join es

end Handlers

namespace DI

/-- The three models `Container.DB` migrates: `entities.Message`,
`repositories.GormEvent`, `entities.EventListenerLog`. -/
inductive Model where
  | Message
  | GormEvent
  | EventListenerLog
  deriving DecidableEq, Repr

/-- The three GORM repositories the container builds. -/
inductive Repository where
  | Message
  | Event
  | EventListenerLog
  deriving DecidableEq, Repr

/-- One observable step of the container: a log line of `container.logger`, a
call of a constructor of another package, or the entry of `Container.DB`.
`H` is the type of the listener's handler functions; pointers are
addresses (`Nat`). -/
inductive Event (H : Type) where
  /-- The call `container.logger.Debug(msg)` -/
  | Debug (msg : String)
  /-- the package-level `logger()` -/
  | logger
  /-- The call `telemetry.NewOtelLogger(projectID, ...)` -/
  | NewOtelLogger (projectID : String)
  /-- The call `validators.NewMessageHandlerValidator(...)` -/
  | NewMessageHandlerValidator
  /-- The method `Container.DB` is entered -/
  | DB
  /-- The call `gorm.Open(...)` -/
  | GormOpen
  /-- The call `db.AutoMigrate(&m)` -/
  | AutoMigrate (m : Model)
  /-- The call `container.logger.Fatal(...)` -/
  | Fatal
  /-- The call `repositories.NewGorm...Repository(..., db)` -/
  | NewRepository (kind : Repository) (db : Nat)
  /-- The call `services.NewEventDispatcher(...)` returned `dispatcher` -/
  | NewEventDispatcher (dispatcher : Nat)
  /-- The call `services.NewMessageService(..., dispatcher)` -/
  | NewMessageService (dispatcher : Nat)
  /-- The call `handlers.NewMessageHandler(..., service)`, with the dispatcher of `service` -/
  | NewMessageHandler (dispatcher : Nat)
  /-- The call `listeners.NewMessageListener(..., service, ...)`, with the dispatcher of `service` -/
  | NewMessageListener (dispatcher : Nat)
  /-- The call `dispatcher.Subscribe(event, handler)` -/
  | Subscribe (dispatcher : Nat) (event : String) (handler : H)
  deriving DecidableEq, Repr

/-- What the container consumes from outside `container.go`: whether
`gorm.Open` and each `AutoMigrate` succeed, and the route map returned by
`listeners.NewMessageListener`, listed in the order the `range` loop visits
it (a Go map holds every event type at most once). -/
structure Env (H : Type) where
  gormOpen : Bool
  autoMigrate : Model → Bool
  routes : List (String × H)

/-- The `Container` struct.  A nil pointer is `none`.  The `logger` field is
written once by `NewContainer` and never read back as data, it is left out. -/
structure Container where
  projectID : String
  db : Option Nat
  eventDispatcher : Option Nat
  deriving DecidableEq, Repr

/-- The container, the next free address of the heap, and the steps taken so far. -/
structure World (H : Type) where
  container : Container
  next : Nat
  trace : List (Event H)

/-- Outcome of a container method: it returns `a`, or `container.logger.Fatal`
ended the process. -/
inductive Result (H α : Type) where
  | ok (a : α) (w : World H)
  | fatal (w : World H)

/-- The world in which a method returned or the process ended. -/
def Result.world {H α : Type} : Result H α → World H
  | .ok _ w => w
  | .fatal w => w

/-- A container method: a function of the world. -/
def M (H α : Type) : Type := World H → Result H α

variable {H : Type}

/-- Sequencing of two steps; a fatal exit ends the run. -/
def M.bind {α β : Type} (m : M H α) (f : α → M H β) : M H β := fun w =>
  match m w with
  | .ok a w1 => f a w1
  | .fatal w1 => .fatal w1

instance : Monad (M H) where
  pure a := fun w => .ok a w
  bind := M.bind

/-- Record one step. -/
def emit (e : Event H) : M H Unit := fun w =>
  .ok () { w with trace := w.trace ++ [e] }

/-- Read the container. -/
def getContainer : M H Container := fun w => .ok w.container w

/-- Write `container.db`. -/
def setDB (db : Option Nat) : M H Unit := fun w =>
  .ok () { w with container := { w.container with db := db } }

/-- Write `container.eventDispatcher`. -/
def setEventDispatcher (d : Option Nat) : M H Unit := fun w =>
  .ok () { w with container := { w.container with eventDispatcher := d } }

/-- Modelled from the spec: the constructors `gorm.Open` (on success) and
`services.NewEventDispatcher` are not under the container source; each is
taken to build a new object, that is to return a pointer that is not nil and
differs from every pointer handed out before. -/
def alloc : M H Nat := fun w =>
  .ok w.next { w with next := w.next + 1 }

/-- Modelled from the spec: `telemetry.Logger.Fatal` is not under the
container source; it is taken to log and end the process. -/
def fatal {α : Type} : M H α := fun w =>
  .fatal { w with trace := w.trace ++ [.Fatal] }

/-- The method `Container.Logger`. -/
def Logger : M H Unit := do
  emit (.Debug "creating telemetry.Logger")
  emit .logger

/-- One `db.AutoMigrate(&m)` with its error check. -/
def migrate (env : Env H) (m : Model) : M H Unit := do
  emit (.AutoMigrate m)
  if env.autoMigrate m then pure () else fatal

/-- The method `Container.DB`. -/
def DB (env : Env H) : M H Nat := do
  emit .DB
  let container ← getContainer
  match container.db with
  | some db => pure db
  | none =>
    emit (.Debug "creating *gorm.DB")
    emit .GormOpen
    if env.gormOpen then
      let db ← alloc
      setDB (some db)
      emit (.Debug "Running migrations for *gorm.DB")
      migrate env .Message
      migrate env .GormEvent
      migrate env .EventListenerLog
      pure db
    else fatal

/-- The method `Container.Tracer`. -/
def Tracer : M H Unit := do
  emit (.Debug "creating telemetry.Tracer")
  let container ← getContainer
  Logger
  emit (.NewOtelLogger container.projectID)

/-- The method `Container.MessageHandlerValidator`. -/
def MessageHandlerValidator : M H Unit := do
  emit (.Debug "creating *validators.MessageHandlerValidator")
  Logger
  Tracer
  emit .NewMessageHandlerValidator

/-- The shared shape of the three repository resolvers; the repository is
represented by the database handle it wraps. -/
def repository (env : Env H) (kind : Repository) (msg : String) : M H Nat := do
  emit (.Debug msg)
  Logger
  Tracer
  let db ← DB env
  emit (.NewRepository kind db)
  pure db

/-- The method `Container.EventRepository`. -/
def EventRepository (env : Env H) : M H Nat :=
  repository env .Event "creating GORM repositories.EventRepository"

/-- The method `Container.MessageRepository`. -/
def MessageRepository (env : Env H) : M H Nat :=
  repository env .Message "creating GORM repositories.MessageRepository"

/-- The method `Container.EventListenerLogRepository`. -/
def EventListenerLogRepository (env : Env H) : M H Nat :=
  repository env .EventListenerLog "creating GORM repositories.EventListenerLogRepository"

/-- The method `Container.EventDispatcher`; it returns the pointer to the dispatcher. -/
def EventDispatcher (env : Env H) : M H Nat := do
  let container ← getContainer
  match container.eventDispatcher with
  | some dispatcher => pure dispatcher
  | none =>
    emit (.Debug "creating *services.EventDispatcher")
    Logger
    Tracer
    let _ ← EventRepository env
    let dispatcher ← alloc
    emit (.NewEventDispatcher dispatcher)
    setEventDispatcher (some dispatcher)
    pure dispatcher

/-- The method `Container.MessageService`; the service is represented by the dispatcher
it was built with. -/
def MessageService (env : Env H) : M H Nat := do
  emit (.Debug "creating *services.MessageService")
  Logger
  Tracer
  let _ ← MessageRepository env
  let dispatcher ← EventDispatcher env
  emit (.NewMessageService dispatcher)
  pure dispatcher

/-- The method `Container.MessageHandler`. -/
def MessageHandler (env : Env H) : M H Unit := do
  emit (.Debug "creating *handlers.MessageHandler")
  Logger
  Tracer
  MessageHandlerValidator
  let service ← MessageService env
  emit (.NewMessageHandler service)

/-- The loop `for event, handler := range routes` of
`Container.RegisterMessageListener`. -/
def subscribeRoutes (env : Env H) : List (String × H) → M H Unit
  | [] => pure ()
  | (event, handler) :: rest => do
    let dispatcher ← EventDispatcher env
    emit (.Subscribe dispatcher event handler)
    subscribeRoutes env rest

/-- The method `Container.RegisterMessageListener`. -/
def RegisterMessageListener (env : Env H) : M H Unit := do
  emit (.Debug "registering *listeners.MessageListener")
  Logger
  Tracer
  let service ← MessageService env
  let _ ← EventListenerLogRepository env
  emit (.NewMessageListener service)
  subscribeRoutes env env.routes

/-- The world in which `NewContainer` starts: the struct literal with nil
`db` and `eventDispatcher`, an empty heap and no step taken. -/
def World.init (projectID : String) : World H :=
  { container := { projectID := projectID, db := none, eventDispatcher := none },
    next := 0,
    trace := [] }

/-- The constructor `NewContainer`. -/
def NewContainer (env : Env H) (projectID : String) : Result H Unit :=
  (do
    emit .logger
    RegisterMessageListener env : M H Unit) (World.init projectID)

/-- The exported methods of `Container`. -/
inductive Call where
  | Logger
  | DB
  | Tracer
  | MessageHandlerValidator
  | EventDispatcher
  | MessageRepository
  | EventRepository
  | EventListenerLogRepository
  | MessageService
  | MessageHandler
  | RegisterMessageListener
  deriving DecidableEq, Repr

/-- Call one method and drop what it returns. -/
def runCall (env : Env H) : Call → M H Unit
  | .Logger => Logger
  | .DB => do let _ ← DB env
  | .Tracer => Tracer
  | .MessageHandlerValidator => MessageHandlerValidator
  | .EventDispatcher => do let _ ← EventDispatcher env
  | .MessageRepository => do let _ ← MessageRepository env
  | .EventRepository => do let _ ← EventRepository env
  | .EventListenerLogRepository => do let _ ← EventListenerLogRepository env
  | .MessageService => do let _ ← MessageService env
  | .MessageHandler => MessageHandler env
  | .RegisterMessageListener => RegisterMessageListener env

/-- Call a sequence of methods, one after the other. -/
def runCalls (env : Env H) : List Call → M H Unit
  | [] => pure ()
  | c :: cs => do
    runCall env c
    runCalls env cs

/-- The dispatchers built by `services.NewEventDispatcher`, in order. -/
def newDispatchers (t : List (Event H)) : List Nat :=
  t.filterMap fun e => match e with
    | .NewEventDispatcher d => some d
    | _ => none

/-- The dispatchers handed to `services.NewMessageService`, in order. -/
def serviceDispatchers (t : List (Event H)) : List Nat :=
  t.filterMap fun e => match e with
    | .NewMessageService d => some d
    | _ => none

/-- The `Subscribe` calls, in order. -/
def subscriptions (t : List (Event H)) : List (Nat × String × H) :=
  t.filterMap fun e => match e with
    | .Subscribe d ev h => some (d, ev, h)
    | _ => none

/-- The models migrated, in order. -/
def migrations (t : List (Event H)) : List Model :=
  t.filterMap fun e => match e with
    | .AutoMigrate m => some m
    | _ => none

/-- How many times `gorm.Open` was called. -/
def gormOpens (t : List (Event H)) : Nat :=
  (t.filter fun e => match e with
    | .GormOpen => true
    | _ => false).length

/-- How many times `Container.DB` was entered. -/
def dbCalls (t : List (Event H)) : Nat :=
  (t.filter fun e => match e with
    | .DB => true
    | _ => false).length

/-- The repositories built, in order, each with the handle it received. -/
def repositories (t : List (Event H)) : List (Repository × Nat) :=
  t.filterMap fun e => match e with
    | .NewRepository k db => some (k, db)
    | _ => none

/-- What every container method guarantees between the world `w` it starts in
and the world `w1` it returns or exits in: a pointer once stored in
`eventDispatcher` or `db` stays; the trace only grows; while the dispatcher is
stored no dispatcher is constructed and every new service and subscription
uses the stored one; from an empty field at most one dispatcher is
constructed, and none if the field is still empty afterwards. -/
structure Rel (w w1 : World H) : Prop where
  dispatcher : ∀ d, w.container.eventDispatcher = some d →
    w1.container.eventDispatcher = some d
  db : ∀ d, w.container.db = some d → w1.container.db = some d
  ext : ∃ t, w1.trace = w.trace ++ t ∧
    (∀ d, w.container.eventDispatcher = some d →
      newDispatchers t = [] ∧ (∀ x ∈ serviceDispatchers t, x = d) ∧
      ∀ s ∈ subscriptions t, s.1 = d) ∧
    (w.container.eventDispatcher = none →
      (newDispatchers t).length ≤ 1 ∧
      (w1.container.eventDispatcher = none → newDispatchers t = []))

/-- A method is good when it guarantees `Rel` from every world. -/
def Good {α : Type} (m : M H α) : Prop := ∀ w, Rel w (m w).world

/-- What the resolvers that never touch the dispatcher guarantee: the
`eventDispatcher` field is unchanged, a stored `db` stays, and the trace grows
by steps that construct no dispatcher, no service and subscribe nothing. -/
structure QuietRel (w w1 : World H) : Prop where
  dispatcher : w1.container.eventDispatcher = w.container.eventDispatcher
  db : ∀ d, w.container.db = some d → w1.container.db = some d
  ext : ∃ t, w1.trace = w.trace ++ t ∧
    newDispatchers t = [] ∧ serviceDispatchers t = [] ∧ subscriptions t = []

/-- A method is quiet when it guarantees `QuietRel` from every world. -/
def Quiet {α : Type} (m : M H α) : Prop := ∀ w, QuietRel w (m w).world

/-- The steps `NewContainer` takes before the subscription loop when
`gorm.Open` and the three migrations succeed (the database handle is the
first pointer handed out, the dispatcher the second). -/
def setupTrace (projectID : String) : List (Event H) :=
  [.logger, .Debug "registering *listeners.MessageListener",
   .Debug "creating telemetry.Logger", .logger, .Debug "creating telemetry.Tracer",
   .Debug "creating telemetry.Logger", .logger, .NewOtelLogger projectID,
   .Debug "creating *services.MessageService", .Debug "creating telemetry.Logger", .logger,
   .Debug "creating telemetry.Tracer", .Debug "creating telemetry.Logger", .logger,
   .NewOtelLogger projectID, .Debug "creating GORM repositories.MessageRepository",
   .Debug "creating telemetry.Logger", .logger, .Debug "creating telemetry.Tracer",
   .Debug "creating telemetry.Logger", .logger, .NewOtelLogger projectID, .DB,
   .Debug "creating *gorm.DB", .GormOpen, .Debug "Running migrations for *gorm.DB",
   .AutoMigrate .Message, .AutoMigrate .GormEvent, .AutoMigrate .EventListenerLog,
   .NewRepository .Message 0, .Debug "creating *services.EventDispatcher",
   .Debug "creating telemetry.Logger", .logger, .Debug "creating telemetry.Tracer",
   .Debug "creating telemetry.Logger", .logger, .NewOtelLogger projectID,
   .Debug "creating GORM repositories.EventRepository", .Debug "creating telemetry.Logger",
   .logger, .Debug "creating telemetry.Tracer", .Debug "creating telemetry.Logger",
   .logger, .NewOtelLogger projectID, .DB, .NewRepository .Event 0, .NewEventDispatcher 1,
   .NewMessageService 1, .Debug "creating GORM repositories.EventListenerLogRepository",
   .Debug "creating telemetry.Logger", .logger, .Debug "creating telemetry.Tracer",
   .Debug "creating telemetry.Logger", .logger, .NewOtelLogger projectID, .DB,
   .NewRepository .EventListenerLog 0, .NewMessageListener 1]

/-- A small instance: the database opens and migrates, and the listener routes
two event types to handlers 7 and 8. -/
def sampleWiring : Env Nat where
  gormOpen := true
  autoMigrate := fun _ => true
  routes := [("message.created", 7), ("message.sent", 8)]

end DI

end HttpSms

/-! Theorems about `message_handler.go`. -/

namespace HttpSms

namespace Handlers

variable {MS MO SP GP Msg Err VE : Type}

/-- C1: every run of `MessageHandler.PostSend` writes exactly one response `r`,
decided in this order: `r` is the bad-request response iff the body parser
returned an error; otherwise the unprocessable-entity response iff the
validator returned a non-empty list; otherwise the internal-server-error
response iff `service.SendMessage` returned an error; otherwise the OK response
with text "message added to queue" carrying the pointer `service.SendMessage`
returned. -/
theorem PostSend_exactly_one_response (h : Env MS MO SP GP Msg Err VE) :
    ∃ r, responses (PostSend h) = [r] ∧
      ((∃ e, r = .BadRequest e) ↔ h.BodyParser.2 ≠ none) ∧
      ((∃ es m, r = .UnprocessableEntity es m) ↔
        h.BodyParser.2 = none ∧ h.ValidateMessageSend h.BodyParser.1 ≠ []) ∧
      (r = .InternalServerError ↔
        h.BodyParser.2 = none ∧ h.ValidateMessageSend h.BodyParser.1 = [] ∧
        (h.SendMessage (h.ToMessageSendParams h.BodyParser.1 h.OriginalURL)).2 ≠ none) ∧
      (r = .OK "message added to queue"
            (h.SendMessage (h.ToMessageSendParams h.BodyParser.1 h.OriginalURL)).1 ↔
        h.BodyParser.2 = none ∧ h.ValidateMessageSend h.BodyParser.1 = [] ∧
        (h.SendMessage (h.ToMessageSendParams h.BodyParser.1 h.OriginalURL)).2 = none) ∧
      (∀ m d, r = .OK m d → m = "message added to queue" ∧
        d = (h.SendMessage (h.ToMessageSendParams h.BodyParser.1 h.OriginalURL)).1) := by
  obtain ⟨body, url, ⟨req, perr⟩, qp, vs, vo, san, tsp, tgp, send, getO, pl, sd⟩ := h
  cases perr with
  | some e => exact ⟨.BadRequest e, by simp [PostSend, PostSendBody, responses]⟩
  | none =>
    by_cases hv : vs req = []
    · rcases hs : send (tsp req url) with ⟨m, _ | e⟩
      · exact ⟨.OK "message added to queue" m,
          by simp [PostSend, PostSendBody, responses, hv, hs]⟩
      · exact ⟨.InternalServerError, by simp [PostSend, PostSendBody, responses, hv, hs]⟩
    · exact ⟨.UnprocessableEntity (vs req) "validation errors while sending message",
        by simp [PostSend, PostSendBody, responses, hv]⟩

/-- C1 witness: the sample send request "hello" with a healthy store is
answered with the single OK response. -/
theorem PostSend_exactly_one_response_witness :
    ∃ r, responses (PostSend (sampleEnv none none "hello" 3 false)) = [r] ∧
      ((∃ e, r = .BadRequest e) ↔ (sampleEnv none none "hello" 3 false).BodyParser.2 ≠ none) :=
  (PostSend_exactly_one_response (sampleEnv none none "hello" 3 false)).imp
    fun _ hr => ⟨hr.1, hr.2.1⟩

/-- C2: in both handlers the service is invoked at most once per request, and
only after the parser returned no error and the validator returned the empty
list (the run then starts with the parser call, the validator call and the
service call, in this order); when the parser fails or the validator returns
at least one error the service is never invoked. -/
theorem service_only_after_validation (h : Env MS MO SP GP Msg Err VE) :
    ((serviceCalls (PostSend h)).length ≤ 1 ∧
      (∀ p, Effect.Service p ∈ PostSend h →
        h.BodyParser.2 = none ∧ h.ValidateMessageSend h.BodyParser.1 = [] ∧
        ∃ rest, PostSend h =
          [.SpanStart, .Parse none, .Validate h.BodyParser.1, .Service p] ++ rest ∧
          ∀ q, Effect.Service q ∉ rest) ∧
      (h.BodyParser.2 ≠ none ∨ h.ValidateMessageSend h.BodyParser.1 ≠ [] →
        serviceCalls (PostSend h) = [])) ∧
    ((serviceCalls (GetOutstanding h)).length ≤ 1 ∧
      (∀ p, Effect.Service p ∈ GetOutstanding h →
        h.QueryParser.2 = none ∧
        h.ValidateMessageOutstanding (h.Sanitize h.QueryParser.1).1 = [] ∧
        ∃ rest, GetOutstanding h =
          [.SpanStart, .Parse none, .Validate (h.Sanitize h.QueryParser.1).1, .Service p]
            ++ rest ∧
          ∀ q, Effect.Service q ∉ rest) ∧
      (h.QueryParser.2 ≠ none ∨
          h.ValidateMessageOutstanding (h.Sanitize h.QueryParser.1).1 ≠ [] →
        serviceCalls (GetOutstanding h) = [])) := by
  obtain ⟨body, url, ⟨req, perr⟩, ⟨qreq, qerr⟩, vs, vo, san, tsp, tgp, send, getO, pl, sd⟩ := h
  constructor
  · cases perr with
    | some e => simp [PostSend, PostSendBody, serviceCalls]
    | none =>
      by_cases hv : vs req = []
      · rcases hs : send (tsp req url) with ⟨m, _ | e⟩ <;>
          simp [PostSend, PostSendBody, serviceCalls, hv, hs]
      · simp [PostSend, PostSendBody, serviceCalls, hv]
  · cases qerr with
    | some e => simp [GetOutstanding, GetOutstandingBody, serviceCalls]
    | none =>
      by_cases hv : vo (san qreq).1 = []
      · rcases hs : getO (tgp (san qreq).2 url) with ⟨_ | l, _ | e⟩ <;>
          simp [GetOutstanding, GetOutstandingBody, GetOutstandingOK, serviceCalls, hv, hs]
      · simp [GetOutstanding, GetOutstandingBody, serviceCalls, hv]

/-- C2 witness: on the sample request with an empty content the validator
reports an error, so the left disjunct fails, the right one holds and the
service is not invoked. -/
theorem service_only_after_validation_witness :
    serviceCalls (PostSend (sampleEnv none none "" 3 false)) = [] :=
  (service_only_after_validation (sampleEnv none none "" 3 false)).1.2.2
    (Or.inr (by simp [sampleEnv]))

/-- C5: when the query parses, the validator accepts it and
`service.GetOutstanding` returns a pointer to a list `l` with a nil error,
`MessageHandler.GetOutstanding` writes exactly one response, the OK response,
carrying that pointer (so the same elements in the same order) and the text
"fetch N w" where N is the length of `l` (0 for the empty list) and `w` is what
`pluralize` makes of "message"; the text is "fetch N message" or
"fetch N messages" when `pluralize` returns one of these two words.  On every
run the internal-server-error response is written iff the service was invoked
and returned an error. -/
theorem GetOutstanding_empty_is_ok (h : Env MS MO SP GP Msg Err VE) :
    (∀ l : List Msg,
      h.QueryParser.2 = none →
      h.ValidateMessageOutstanding (h.Sanitize h.QueryParser.1).1 = [] →
      h.GetOutstanding (h.ToGetOutstandingParams (h.Sanitize h.QueryParser.1).2 h.OriginalURL)
        = (some l, none) →
      responses (GetOutstanding h) =
        [.OK ("fetch " ++ toString l.length ++ " " ++ h.pluralize "message" l.length) (some l)] ∧
      panics (GetOutstanding h) = false ∧
      (h.pluralize "message" l.length = "message" ∨
          h.pluralize "message" l.length = "messages" →
        responses (GetOutstanding h) =
            [.OK ("fetch " ++ toString l.length ++ " " ++ "message") (some l)] ∨
          responses (GetOutstanding h) =
            [.OK ("fetch " ++ toString l.length ++ " " ++ "messages") (some l)])) ∧
    (Response.InternalServerError ∈ responses (GetOutstanding h) ↔
      ∃ p, Effect.Service p ∈ GetOutstanding h ∧ (h.GetOutstanding p).2 ≠ none) := by
  obtain ⟨body, url, ⟨req, perr⟩, ⟨qreq, qerr⟩, vs, vo, san, tsp, tgp, send, getO, pl, sd⟩ := h
  constructor
  · intro l hq hv hs
    simp only at hq hv hs
    subst hq
    have hresp : responses (GetOutstanding
        (⟨body, url, (req, perr), (qreq, none), vs, vo, san, tsp, tgp, send, getO, pl, sd⟩ :
          Env MS MO SP GP Msg Err VE)) =
        [.OK ("fetch " ++ toString l.length ++ " " ++ pl "message" l.length) (some l)] := by
      simp [GetOutstanding, GetOutstandingBody, GetOutstandingOK, responses, hv, hs]
    refine ⟨hresp, ?_, ?_⟩
    · simp [GetOutstanding, GetOutstandingBody, GetOutstandingOK, panics, hv, hs]
    · intro hw
      rw [hresp]
      rcases hw with hw | hw
      · left; simp only at hw; rw [hw]
      · right; simp only at hw; rw [hw]
  · cases qerr with
    | some e => simp [GetOutstanding, GetOutstandingBody, responses]
    | none =>
      by_cases hv : vo (san qreq).1 = []
      · rcases hs : getO (tgp (san qreq).2 url) with ⟨_ | l, _ | e⟩ <;>
          simp [GetOutstanding, GetOutstandingBody, GetOutstandingOK, responses, hv, hs]
      · simp [GetOutstanding, GetOutstandingBody, responses, hv]

/-- C5 witness: the sample query `take = 3` against a store with nothing
outstanding is answered OK with the empty list and the count 0. -/
theorem GetOutstanding_empty_is_ok_witness :
    responses (GetOutstanding { sampleEnv none none "" 3 false with
        GetOutstanding := fun _ => (some [], none) }) =
      [.OK ("fetch " ++ toString ([] : List String).length ++ " " ++
          (sampleEnv none none "" 3 false).pluralize "message" ([] : List String).length)
        (some [])] :=
  ((GetOutstanding_empty_is_ok { sampleEnv none none "" 3 false with
      GetOutstanding := fun _ => (some [], none) }).1 []
    (by simp [sampleEnv]) (by simp [sampleEnv]) (by simp)).1

/-- C6: in both handlers, when the parser succeeds and the validator returns
a non-empty list, the single response is the unprocessable-entity response
carrying exactly the list the validator returned, and the handler logs
exactly one entry, at Warn level (so none at Error level). -/
theorem validation_errors_surfaced (h : Env MS MO SP GP Msg Err VE) :
    (h.BodyParser.2 = none → h.ValidateMessageSend h.BodyParser.1 ≠ [] →
      responses (PostSend h) =
        [.UnprocessableEntity (h.ValidateMessageSend h.BodyParser.1)
          "validation errors while sending message"] ∧
      (∃ msg, logs (PostSend h) = [(Level.Warn, none, msg)]) ∧
      ∀ c m, Effect.Log Level.Error c m ∉ PostSend h) ∧
    (h.QueryParser.2 = none →
      h.ValidateMessageOutstanding (h.Sanitize h.QueryParser.1).1 ≠ [] →
      responses (GetOutstanding h) =
        [.UnprocessableEntity (h.ValidateMessageOutstanding (h.Sanitize h.QueryParser.1).1)
          "validation errors while fetching outstanding messages"] ∧
      (∃ msg, logs (GetOutstanding h) = [(Level.Warn, none, msg)]) ∧
      ∀ c m, Effect.Log Level.Error c m ∉ GetOutstanding h) := by
  obtain ⟨body, url, ⟨req, perr⟩, ⟨qreq, qerr⟩, vs, vo, san, tsp, tgp, send, getO, pl, sd⟩ := h
  constructor
  · intro hp hv
    simp only at hp hv
    subst hp
    simp [PostSend, PostSendBody, responses, logs, hv]
  · intro hq hv
    simp only at hq hv
    subst hq
    simp [GetOutstanding, GetOutstandingBody, responses, logs, hv]

/-- C6 witness: the sample send request with an empty content. -/
theorem validation_errors_surfaced_witness :
    responses (PostSend (sampleEnv none none "" 3 false)) =
      [.UnprocessableEntity
        ((sampleEnv none none "" 3 false).ValidateMessageSend
          (sampleEnv none none "" 3 false).BodyParser.1)
        "validation errors while sending message"] :=
  ((validation_errors_surfaced (sampleEnv none none "" 3 false)).1
    (by simp [sampleEnv]) (by simp [sampleEnv])).1

/-- C9: with everything else fixed, two services that both fail on the params
the handler builds make `PostSend` (respectively `GetOutstanding`) write the
same responses, namely the single internal-server-error response: the error
reaches the log entry only. -/
theorem internal_error_independent_of_cause (h : Env MS MO SP GP Msg Err VE)
    (send1 send2 : SP → Option Msg × Option Err)
    (get1 get2 : GP → Option (List Msg) × Option Err) :
    ((send1 (h.ToMessageSendParams h.BodyParser.1 h.OriginalURL)).2 ≠ none →
      (send2 (h.ToMessageSendParams h.BodyParser.1 h.OriginalURL)).2 ≠ none →
      responses (PostSend { h with SendMessage := send1 }) =
        responses (PostSend { h with SendMessage := send2 }) ∧
      (h.BodyParser.2 = none → h.ValidateMessageSend h.BodyParser.1 = [] →
        responses (PostSend { h with SendMessage := send1 }) = [.InternalServerError])) ∧
    ((get1 (h.ToGetOutstandingParams (h.Sanitize h.QueryParser.1).2 h.OriginalURL)).2 ≠ none →
      (get2 (h.ToGetOutstandingParams (h.Sanitize h.QueryParser.1).2 h.OriginalURL)).2 ≠ none →
      responses (GetOutstanding { h with GetOutstanding := get1 }) =
        responses (GetOutstanding { h with GetOutstanding := get2 }) ∧
      (h.QueryParser.2 = none →
        h.ValidateMessageOutstanding (h.Sanitize h.QueryParser.1).1 = [] →
        responses (GetOutstanding { h with GetOutstanding := get1 }) =
          [.InternalServerError])) := by
  obtain ⟨body, url, ⟨req, perr⟩, ⟨qreq, qerr⟩, vs, vo, san, tsp, tgp, send, getO, pl, sd⟩ := h
  constructor
  · intro h1 h2
    simp only at h1 h2
    rcases hs1 : send1 (tsp req url) with ⟨m1, _ | e1⟩
    · simp [hs1] at h1
    rcases hs2 : send2 (tsp req url) with ⟨m2, _ | e2⟩
    · simp [hs2] at h2
    cases perr with
    | some e => simp [PostSend, PostSendBody, responses]
    | none =>
      by_cases hv : vs req = [] <;>
        simp [PostSend, PostSendBody, responses, hv, hs1, hs2]
  · intro h1 h2
    simp only at h1 h2
    rcases hs1 : get1 (tgp (san qreq).2 url) with ⟨m1, _ | e1⟩
    · simp [hs1] at h1
    rcases hs2 : get2 (tgp (san qreq).2 url) with ⟨m2, _ | e2⟩
    · simp [hs2] at h2
    cases qerr with
    | some e => simp [GetOutstanding, GetOutstandingBody, responses]
    | none =>
      by_cases hv : vo (san qreq).1 = [] <;>
        simp [GetOutstanding, GetOutstandingBody, responses, hv, hs1, hs2]

/-- C9 witness: the sample send request "hello" against a store failing with
"timeout" and one failing with "disk full". -/
theorem internal_error_independent_of_cause_witness :
    responses (PostSend { sampleEnv none none "hello" 3 false with
        SendMessage := fun _ => (none, some "timeout") }) =
      responses (PostSend { sampleEnv none none "hello" 3 false with
        SendMessage := fun _ => (none, some "disk full") }) :=
  ((internal_error_independent_of_cause (sampleEnv none none "hello" 3 false)
    (fun _ => (none, some "timeout")) (fun _ => (none, some "disk full"))
    (fun _ => (none, some "timeout")) (fun _ => (none, some "disk full"))).1
    (by simp) (by simp)).1

/-- C10: `MessageHandler.GetOutstanding` dereferences only the pointer the
service returned, and only on the path where the parser succeeded, the
validator accepted and the service returned a nil error.  Hence if the service
returns a non-nil pointer whenever it returns a nil error, no run dereferences
nil and no run panics. -/
theorem GetOutstanding_deref_only_without_error (h : Env MS MO SP GP Msg Err VE) :
    (∀ ptr, Effect.Deref ptr ∈ GetOutstanding h →
      h.QueryParser.2 = none ∧
      h.ValidateMessageOutstanding (h.Sanitize h.QueryParser.1).1 = [] ∧
      h.GetOutstanding (h.ToGetOutstandingParams (h.Sanitize h.QueryParser.1).2 h.OriginalURL)
        = (ptr, none)) ∧
    ((∀ p, (h.GetOutstanding p).2 = none → (h.GetOutstanding p).1 ≠ none) →
      Effect.Deref none ∉ GetOutstanding h ∧ panics (GetOutstanding h) = false) := by
  obtain ⟨body, url, ⟨req, perr⟩, ⟨qreq, qerr⟩, vs, vo, san, tsp, tgp, send, getO, pl, sd⟩ := h
  constructor
  · cases qerr with
    | some e => simp [GetOutstanding, GetOutstandingBody]
    | none =>
      by_cases hv : vo (san qreq).1 = []
      · rcases hs : getO (tgp (san qreq).2 url) with ⟨_ | l, _ | e⟩ <;>
          simp [GetOutstanding, GetOutstandingBody, GetOutstandingOK, hv, hs]
      · simp [GetOutstanding, GetOutstandingBody, hv]
  · intro hpre
    simp only at hpre
    cases qerr with
    | some e => simp [GetOutstanding, GetOutstandingBody, panics]
    | none =>
      by_cases hv : vo (san qreq).1 = []
      · have hp := hpre (tgp (san qreq).2 url)
        rcases hs : getO (tgp (san qreq).2 url) with ⟨_ | l, _ | e⟩ <;>
          simp [hs] at hp <;>
          simp [GetOutstanding, GetOutstandingBody, GetOutstandingOK, panics, hv, hs]
      · simp [GetOutstanding, GetOutstandingBody, panics, hv]

/-- C10 witness: the sample service returns a non-nil pointer with every nil
error, so the sample query `take = 3` does not panic. -/
theorem GetOutstanding_deref_only_without_error_witness :
    Effect.Deref none ∉ GetOutstanding (sampleEnv none none "" 3 false) ∧
    panics (GetOutstanding (sampleEnv none none "" 3 false)) = false :=
  (GetOutstanding_deref_only_without_error (sampleEnv none none "" 3 false)).2
    (by intro p; simp only [sampleEnv]; split <;> simp)

end Handlers

end HttpSms

/-! Theorems about `container.go`. -/

namespace HttpSms

namespace DI

variable {H : Type}

@[simp] theorem bind_apply {α β : Type} (m : M H α) (f : α → M H β) (w : World H) :
    (m >>= f) w = match m w with
      | .ok a w1 => f a w1
      | .fatal w1 => .fatal w1 := rfl

@[simp] theorem pure_apply {α : Type} (a : α) (w : World H) :
    (pure a : M H α) w = .ok a w := rfl

@[simp] theorem emit_apply (e : Event H) (w : World H) :
    emit e w = .ok () { w with trace := w.trace ++ [e] } := rfl

@[simp] theorem getContainer_apply (w : World H) :
    (getContainer : M H Container) w = .ok w.container w := rfl

@[simp] theorem fatal_apply {α : Type} (w : World H) :
    (fatal : M H α) w = .fatal { w with trace := w.trace ++ [.Fatal] } := rfl

@[simp] theorem alloc_apply (w : World H) :
    (alloc : M H Nat) w = .ok w.next { w with next := w.next + 1 } := rfl

@[simp] theorem setDB_apply (db : Option Nat) (w : World H) :
    setDB db w = .ok () { w with container := { w.container with db := db } } := rfl

@[simp] theorem setEventDispatcher_apply (d : Option Nat) (w : World H) :
    setEventDispatcher d w =
      .ok () { w with container := { w.container with eventDispatcher := d } } := rfl

theorem newDispatchers_append (a b : List (Event H)) :
    newDispatchers (a ++ b) = newDispatchers a ++ newDispatchers b := by
  simp [newDispatchers]

theorem serviceDispatchers_append (a b : List (Event H)) :
    serviceDispatchers (a ++ b) = serviceDispatchers a ++ serviceDispatchers b := by
  simp [serviceDispatchers]

theorem subscriptions_append (a b : List (Event H)) :
    subscriptions (a ++ b) = subscriptions a ++ subscriptions b := by
  simp [subscriptions]

theorem rel_refl (w : World H) : Rel w w :=
  ⟨fun _ h => h, fun _ h => h, [], by simp [newDispatchers, serviceDispatchers, subscriptions]⟩

theorem rel_trans {a b c : World H} (hab : Rel a b) (hbc : Rel b c) : Rel a c := by
  obtain ⟨d1, b1, t1, e1, s1, n1⟩ := hab
  obtain ⟨d2, b2, t2, e2, s2, n2⟩ := hbc
  refine ⟨fun d h => d2 d (d1 d h), fun d h => b2 d (b1 d h), t1 ++ t2, ?_, ?_, ?_⟩
  · rw [e2, e1, List.append_assoc]
  · intro d hd
    obtain ⟨x1, y1, z1⟩ := s1 d hd
    obtain ⟨x2, y2, z2⟩ := s2 d (d1 d hd)
    refine ⟨?_, ?_, ?_⟩
    · rw [newDispatchers_append, x1, x2]
      rfl
    · intro x hx
      rw [serviceDispatchers_append, List.mem_append] at hx
      rcases hx with hx | hx
      · exact y1 x hx
      · exact y2 x hx
    · intro s hs
      rw [subscriptions_append, List.mem_append] at hs
      rcases hs with hs | hs
      · exact z1 s hs
      · exact z2 s hs
  · intro ha
    obtain ⟨l1, k1⟩ := n1 ha
    rw [newDispatchers_append]
    cases hb : b.container.eventDispatcher with
    | none =>
      obtain ⟨l2, k2⟩ := n2 hb
      rw [k1 hb]
      exact ⟨by simpa using l2, fun hc => by simpa using k2 hc⟩
    | some d =>
      obtain ⟨x2, _, _⟩ := s2 d hb
      rw [x2]
      refine ⟨by simpa using l1, fun hc => ?_⟩
      rw [d2 d hb] at hc
      cases hc

theorem bind_rel {α β : Type} (R : World H → World H → Prop)
    (htrans : ∀ a b c, R a b → R b c → R a c) {m : M H α} {f : α → M H β}
    (hm : ∀ w, R w (m w).world)
    (hf : ∀ w a w1, m w = .ok a w1 → R w1 (f a w1).world) :
    ∀ w, R w ((m >>= f) w).world := by
  intro w
  have h1 := hm w
  rw [bind_apply]
  cases hmw : m w with
  | ok a w1 =>
    rw [hmw] at h1
    exact htrans _ _ _ h1 (hf w a w1 hmw)
  | fatal w1 =>
    rw [hmw] at h1
    exact h1

theorem quietRel_refl (w : World H) : QuietRel w w :=
  ⟨rfl, fun _ h => h, [], by simp [newDispatchers, serviceDispatchers, subscriptions]⟩

theorem quietRel_trans {a b c : World H} (hab : QuietRel a b) (hbc : QuietRel b c) :
    QuietRel a c := by
  obtain ⟨d1, b1, t1, e1, x1, y1, z1⟩ := hab
  obtain ⟨d2, b2, t2, e2, x2, y2, z2⟩ := hbc
  refine ⟨d2.trans d1, fun d h => b2 d (b1 d h), t1 ++ t2, ?_, ?_, ?_, ?_⟩
  · rw [e2, e1, List.append_assoc]
  · rw [newDispatchers_append, x1, x2]; rfl
  · rw [serviceDispatchers_append, y1, y2]; rfl
  · rw [subscriptions_append, z1, z2]; rfl

theorem quietRel_rel {w w1 : World H} (h : QuietRel w w1) : Rel w w1 := by
  obtain ⟨hd, hb, t, ht, x, y, z⟩ := h
  refine ⟨fun d h => by rw [hd]; exact h, hb, t, ht, ?_, ?_⟩
  · intro d _
    rw [x, y, z]
    simp
  · intro _
    rw [x]
    simp

theorem quiet_good {α : Type} {m : M H α} (h : Quiet m) : Good m := fun w => quietRel_rel (h w)

theorem quiet_pure {α : Type} (a : α) : Quiet (pure a : M H α) := fun w => quietRel_refl w

theorem quiet_bind {α β : Type} {m : M H α} {f : α → M H β}
    (hm : Quiet m) (hf : ∀ a, Quiet (f a)) : Quiet (m >>= f) :=
  bind_rel QuietRel (fun _ _ _ => quietRel_trans) hm fun _ a w1 _ => hf a w1

theorem good_pure {α : Type} (a : α) : Good (pure a : M H α) := fun w => rel_refl w

theorem good_bind {α β : Type} {m : M H α} {f : α → M H β}
    (hm : Good m) (hf : ∀ a, Good (f a)) : Good (m >>= f) :=
  bind_rel Rel (fun _ _ _ => rel_trans) hm fun _ a w1 _ => hf a w1

theorem quiet_emit (e : Event H) (h1 : newDispatchers [e] = [])
    (h2 : serviceDispatchers [e] = []) (h3 : subscriptions [e] = []) : Quiet (emit e) :=
  fun _ => ⟨rfl, fun _ h => h, [e], rfl, h1, h2, h3⟩

theorem good_emit (e : Event H) (h1 : newDispatchers [e] = [])
    (h2 : serviceDispatchers [e] = []) (h3 : subscriptions [e] = []) : Good (emit e) :=
  quiet_good (quiet_emit e h1 h2 h3)

theorem quiet_fatal {α : Type} : Quiet (fatal : M H α) :=
  fun _ => ⟨rfl, fun _ h => h, [.Fatal], rfl, rfl, rfl, rfl⟩

theorem quiet_getContainer : Quiet (getContainer : M H Container) := fun w => quietRel_refl w

theorem quiet_alloc : Quiet (alloc : M H Nat) :=
  fun _ => ⟨rfl, fun _ h => h, [], by simp [DI.alloc, Result.world], rfl, rfl, rfl⟩

theorem quiet_Logger : Quiet (Logger : M H Unit) :=
  quiet_bind (quiet_emit _ rfl rfl rfl) fun _ => quiet_emit _ rfl rfl rfl

theorem quiet_Tracer : Quiet (Tracer : M H Unit) :=
  quiet_bind (quiet_emit _ rfl rfl rfl) fun _ =>
    quiet_bind quiet_getContainer fun _ =>
      quiet_bind quiet_Logger fun _ => quiet_emit _ rfl rfl rfl

theorem quiet_MessageHandlerValidator : Quiet (MessageHandlerValidator : M H Unit) :=
  quiet_bind (quiet_emit _ rfl rfl rfl) fun _ =>
    quiet_bind quiet_Logger fun _ =>
      quiet_bind quiet_Tracer fun _ => quiet_emit _ rfl rfl rfl

theorem quiet_migrate (env : Env H) (m : Model) : Quiet (migrate env m) := by
  unfold DI.migrate
  refine quiet_bind (quiet_emit _ rfl rfl rfl) fun _ => ?_
  split
  · exact quiet_pure ()
  · exact quiet_fatal

/-- Once `db` is stored, `Container.DB` returns it and only records its entry. -/
theorem DB_stored (env : Env H) (w : World H) (db : Nat) (h : w.container.db = some db) :
    DB env w = .ok db { w with trace := w.trace ++ [.DB] } := by
  simp [DB, h]

/-- With `db` nil and `gorm.Open` and the migrations succeeding, `Container.DB`
opens the database once, stores the new handle and migrates the three models. -/
theorem DB_fresh (env : Env H) (w : World H) (h : w.container.db = none)
    (hopen : env.gormOpen = true) (hmig : ∀ m, env.autoMigrate m = true) :
    DB env w = .ok w.next
      { container := { w.container with db := some w.next },
        next := w.next + 1,
        trace := w.trace ++
          [.DB, .Debug "creating *gorm.DB", .GormOpen,
           .Debug "Running migrations for *gorm.DB",
           .AutoMigrate .Message, .AutoMigrate .GormEvent, .AutoMigrate .EventListenerLog] } := by
  simp [DB, h, hopen, hmig, migrate]

theorem quiet_DB (env : Env H) : Quiet (DB env) := by
  intro w
  cases h : w.container.db with
  | some db =>
    rw [DB_stored env w db h]
    exact ⟨rfl, fun _ h => h, [.DB], rfl, rfl, rfl, rfl⟩
  | none =>
    simp only [DI.DB, DI.migrate, bind_apply, emit_apply, getContainer_apply, h]
    cases env.gormOpen <;> cases env.autoMigrate .Message <;>
      cases env.autoMigrate .GormEvent <;> cases env.autoMigrate .EventListenerLog <;>
      simp [Result.world] <;>
      exact ⟨rfl, by simp [h], _, rfl, rfl, rfl, rfl⟩

theorem quiet_repository (env : Env H) (kind : Repository) (msg : String) :
    Quiet (repository env kind msg) :=
  quiet_bind (quiet_emit _ rfl rfl rfl) fun _ =>
    quiet_bind quiet_Logger fun _ =>
      quiet_bind quiet_Tracer fun _ =>
        quiet_bind (quiet_DB env) fun _ =>
          quiet_bind (quiet_emit _ rfl rfl rfl) fun _ => quiet_pure _

/-- Once a dispatcher is stored, `Container.EventDispatcher` returns it and
changes nothing. -/
theorem EventDispatcher_stored (env : Env H) (w : World H) (d : Nat)
    (h : w.container.eventDispatcher = some d) : EventDispatcher env w = .ok d w := by
  simp [EventDispatcher, h]

/-- A quiet step followed by steps that, from an empty field, construct one
dispatcher and store it, does the same. -/
theorem fresh_bind {α : Type} {m : M H α} {f : α → M H Nat} (hm : Quiet m)
    (hf : ∀ a w d w1, f a w = .ok d w1 →
      w1.container.eventDispatcher = some d ∧
      newDispatchers w1.trace = newDispatchers w.trace ++ [d]) :
    ∀ w d w1, (m >>= f) w = .ok d w1 →
      w1.container.eventDispatcher = some d ∧
      newDispatchers w1.trace = newDispatchers w.trace ++ [d] := by
  intro w d w1 h
  rw [bind_apply] at h
  have hq := hm w
  cases hmw : m w with
  | ok a w0 =>
    rw [hmw] at h hq
    obtain ⟨_, _, t, ht, x, _, _⟩ := hq
    obtain ⟨h1, h2⟩ := hf a w0 d w1 h
    refine ⟨h1, ?_⟩
    rw [h2]
    simp only [Result.world] at ht
    rw [ht, newDispatchers_append, x, List.append_nil]
  | fatal w0 =>
    rw [hmw] at h
    cases h

/-- A quiet step followed by steps that are good from an empty field is good
from an empty field. -/
theorem good_from_none_bind {α β : Type} {m : M H α} {f : α → M H β} (hm : Quiet m)
    (hf : ∀ a w, w.container.eventDispatcher = none → Rel w (f a w).world) :
    ∀ w, w.container.eventDispatcher = none → Rel w ((m >>= f) w).world := by
  intro w hw
  rw [bind_apply]
  have hq := hm w
  cases hmw : m w with
  | ok a w0 =>
    rw [hmw] at hq
    simp only [Result.world] at hq
    exact rel_trans (quietRel_rel hq) (hf a w0 (by rw [hq.dispatcher]; exact hw))
  | fatal w0 =>
    rw [hmw] at hq
    exact quietRel_rel hq

/-- With the field empty, a call of `Container.EventDispatcher` that returns
has constructed exactly one dispatcher, stored it and returned it. -/
theorem EventDispatcher_fresh (env : Env H) (w w1 : World H) (d : Nat)
    (hf : w.container.eventDispatcher = none) (h : EventDispatcher env w = .ok d w1) :
    w1.container.eventDispatcher = some d ∧
    newDispatchers w1.trace = newDispatchers w.trace ++ [d] := by
  have key : ∀ w d w1,
      (do
        emit (.Debug "creating *services.EventDispatcher")
        Logger
        Tracer
        let _ ← EventRepository env
        let dispatcher ← alloc
        emit (.NewEventDispatcher dispatcher)
        setEventDispatcher (some dispatcher)
        pure dispatcher : M H Nat) w = .ok d w1 →
      w1.container.eventDispatcher = some d ∧
      newDispatchers w1.trace = newDispatchers w.trace ++ [d] :=
    fresh_bind (quiet_emit _ rfl rfl rfl) fun _ =>
      fresh_bind quiet_Logger fun _ =>
        fresh_bind quiet_Tracer fun _ =>
          fresh_bind (quiet_repository env _ _) fun _ w d w1 h => by
            simp only [bind_apply, alloc_apply, emit_apply, setEventDispatcher_apply,
              pure_apply, Result.ok.injEq] at h
            obtain ⟨rfl, rfl⟩ := h
            simp [newDispatchers_append, newDispatchers]
  apply key w d w1
  simpa [DI.EventDispatcher, hf] using h

/-- When `Container.EventDispatcher` returns, the pointer it returns is the one
stored in the field. -/
theorem EventDispatcher_returns_field (env : Env H) (w w1 : World H) (d : Nat)
    (h : EventDispatcher env w = .ok d w1) : w1.container.eventDispatcher = some d := by
  cases hf : w.container.eventDispatcher with
  | some d0 =>
    rw [EventDispatcher_stored env w d0 hf] at h
    cases h
    exact hf
  | none => exact (EventDispatcher_fresh env w w1 d hf h).1

theorem good_EventDispatcher (env : Env H) : Good (EventDispatcher env) := by
  intro w
  cases hf : w.container.eventDispatcher with
  | some d0 =>
    rw [EventDispatcher_stored env w d0 hf]
    exact rel_refl w
  | none =>
    have key : ∀ w : World H, w.container.eventDispatcher = none →
        Rel w ((do
          emit (.Debug "creating *services.EventDispatcher")
          Logger
          Tracer
          let _ ← EventRepository env
          let dispatcher ← alloc
          emit (.NewEventDispatcher dispatcher)
          setEventDispatcher (some dispatcher)
          pure dispatcher : M H Nat) w).world :=
      good_from_none_bind (quiet_emit _ rfl rfl rfl) fun _ =>
        good_from_none_bind quiet_Logger fun _ =>
          good_from_none_bind quiet_Tracer fun _ =>
            good_from_none_bind (quiet_repository env _ _) fun _ w hw => by
              simp only [bind_apply, alloc_apply, emit_apply, setEventDispatcher_apply,
                pure_apply, Result.world]
              refine ⟨fun d h => (by rw [hw] at h; cases h), fun _ h => h,
                [.NewEventDispatcher w.next], rfl, ?_, ?_⟩
              · intro d h
                rw [hw] at h
                cases h
              · intro _
                simp [newDispatchers]
    have := key w hf
    simpa [DI.EventDispatcher, hf] using this

theorem rel_emit_service (w : World H) (d : Nat) (h : w.container.eventDispatcher = some d) :
    Rel w { w with trace := w.trace ++ [.NewMessageService d] } := by
  refine ⟨fun _ h => h, fun _ h => h, [.NewMessageService d], rfl, ?_, ?_⟩
  · intro d1 h1
    rw [h] at h1
    cases h1
    simp [newDispatchers, serviceDispatchers, subscriptions]
  · intro h1
    rw [h] at h1
    cases h1

theorem rel_emit_subscribe (w : World H) (d : Nat) (ev : String) (hd : H)
    (h : w.container.eventDispatcher = some d) :
    Rel w { w with trace := w.trace ++ [.Subscribe d ev hd] } := by
  refine ⟨fun _ h => h, fun _ h => h, [.Subscribe d ev hd], rfl, ?_, ?_⟩
  · intro d1 h1
    rw [h] at h1
    cases h1
    simp [newDispatchers, serviceDispatchers, subscriptions]
  · intro h1
    rw [h] at h1
    cases h1

theorem good_MessageService (env : Env H) : Good (MessageService env) :=
  good_bind (good_emit _ rfl rfl rfl) fun _ =>
    good_bind (quiet_good quiet_Logger) fun _ =>
      good_bind (quiet_good quiet_Tracer) fun _ =>
        good_bind (quiet_good (quiet_repository env _ _)) fun _ =>
          bind_rel Rel (fun _ _ _ => rel_trans) (good_EventDispatcher env)
            fun w d w1 h => by
              simp only [bind_apply, emit_apply, pure_apply, Result.world]
              exact rel_emit_service w1 d (EventDispatcher_returns_field env w w1 d h)

theorem good_MessageHandler (env : Env H) : Good (MessageHandler env) :=
  good_bind (good_emit _ rfl rfl rfl) fun _ =>
    good_bind (quiet_good quiet_Logger) fun _ =>
      good_bind (quiet_good quiet_Tracer) fun _ =>
        good_bind (quiet_good quiet_MessageHandlerValidator) fun _ =>
          good_bind (good_MessageService env) fun _ => good_emit _ rfl rfl rfl

theorem good_subscribeRoutes (env : Env H) (routes : List (String × H)) :
    Good (subscribeRoutes env routes) := by
  induction routes with
  | nil => exact good_pure ()
  | cons r rest ih =>
    obtain ⟨ev, hd⟩ := r
    exact bind_rel Rel (fun _ _ _ => rel_trans) (good_EventDispatcher env)
      fun w d w1 h => by
        have h1 := EventDispatcher_returns_field env w w1 d h
        simp only [bind_apply, emit_apply]
        exact rel_trans (rel_emit_subscribe w1 d ev hd h1) (ih _)

theorem good_RegisterMessageListener (env : Env H) : Good (RegisterMessageListener env) :=
  good_bind (good_emit _ rfl rfl rfl) fun _ =>
    good_bind (quiet_good quiet_Logger) fun _ =>
      good_bind (quiet_good quiet_Tracer) fun _ =>
        good_bind (good_MessageService env) fun _ =>
          good_bind (quiet_good (quiet_repository env _ _)) fun _ =>
            good_bind (good_emit _ rfl rfl rfl) fun _ =>
              good_subscribeRoutes env env.routes

theorem good_runCall (env : Env H) (c : Call) : Good (runCall env c) := by
  cases c
  · exact (quiet_good quiet_Logger)
  · exact good_bind (quiet_good (quiet_DB env)) fun _ => good_pure _
  · exact (quiet_good quiet_Tracer)
  · exact (quiet_good quiet_MessageHandlerValidator)
  · exact good_bind (good_EventDispatcher env) fun _ => good_pure _
  · exact good_bind (quiet_good (quiet_repository env _ _)) fun _ => good_pure _
  · exact good_bind (quiet_good (quiet_repository env _ _)) fun _ => good_pure _
  · exact good_bind (quiet_good (quiet_repository env _ _)) fun _ => good_pure _
  · exact good_bind (good_MessageService env) fun _ => good_pure _
  · exact good_MessageHandler env
  · exact good_RegisterMessageListener env

theorem good_runCalls (env : Env H) (cs : List Call) : Good (runCalls env cs) := by
  induction cs with
  | nil => exact good_pure ()
  | cons c cs ih => exact good_bind (good_runCall env c) fun _ => ih

/-- With a dispatcher `d` stored, the subscription loop calls `Subscribe` on `d`
once for each entry of the route map, in the order of the iteration, and does
nothing else. -/
theorem subscribeRoutes_stored (env : Env H) (routes : List (String × H)) (c : Container)
    (n d : Nat) (t : List (Event H)) (h : c.eventDispatcher = some d) :
    subscribeRoutes env routes ⟨c, n, t⟩ =
      .ok () ⟨c, n, t ++ routes.map fun r => .Subscribe d r.1 r.2⟩ := by
  induction routes generalizing t with
  | nil => simp [subscribeRoutes]
  | cons r rest ih =>
    obtain ⟨ev, hd⟩ := r
    simp [subscribeRoutes, EventDispatcher, h, ih]

/-- The run of `NewContainer` when `gorm.Open` and the three migrations succeed. -/
theorem NewContainer_run (env : Env H) (projectID : String)
    (hopen : env.gormOpen = true) (hmig : ∀ m, env.autoMigrate m = true) :
    NewContainer env projectID =
      .ok () ⟨⟨projectID, some 0, some 1⟩, 2,
        setupTrace projectID ++ env.routes.map fun r => .Subscribe 1 r.1 r.2⟩ := by
  simp [NewContainer, RegisterMessageListener, MessageService, MessageRepository,
    EventRepository, EventListenerLogRepository, repository, DB, migrate, Logger, Tracer,
    EventDispatcher, World.init, hopen, hmig, subscribeRoutes_stored, setupTrace]

/-- The constructor `NewContainer` returns exactly when `gorm.Open` and the three migrations
succeed; otherwise `Fatal` ends the process. -/
theorem NewContainer_returns_iff (env : Env H) (projectID : String) :
    (∃ w, NewContainer env projectID = .ok () w) ↔
      env.gormOpen = true ∧ ∀ m, env.autoMigrate m = true := by
  constructor
  · rintro ⟨w, hw⟩
    cases h1 : env.gormOpen <;> cases h2 : env.autoMigrate .Message <;>
      cases h3 : env.autoMigrate .GormEvent <;> cases h4 : env.autoMigrate .EventListenerLog
    all_goals first
      | (exfalso
         simp [NewContainer, RegisterMessageListener, MessageService, MessageRepository,
           repository, DB, migrate, Logger, Tracer, World.init, h1, h2, h3, h4] at hw
         done)
      | (refine ⟨rfl, fun m => ?_⟩
         cases m
         · exact h2
         · exact h3
         · exact h4)
  · rintro ⟨hopen, hmig⟩
    exact ⟨_, NewContainer_run env projectID hopen hmig⟩

theorem subscriptions_map_subscribe (d : Nat) (routes : List (String × H)) :
    subscriptions (routes.map fun r => (.Subscribe d r.1 r.2 : Event H)) =
      routes.map fun r => (d, r.1, r.2) := by
  induction routes with
  | nil => rfl
  | cons r rest ih => simp [subscriptions] at ih ⊢; exact ih

/-- With the database handle and a dispatcher `d` stored, the method
`Container.MessageHandler` returns; it builds one service, with `d`, hands it to
the handler, and neither constructs a dispatcher nor opens the database. -/
theorem MessageHandler_stored (env : Env H) (c : Container) (n b d : Nat) (t : List (Event H))
    (hb : c.db = some b) (hd : c.eventDispatcher = some d) :
    ∃ t1, MessageHandler env ⟨c, n, t⟩ = .ok () ⟨c, n, t ++ t1⟩ ∧
      serviceDispatchers t1 = [d] ∧ Event.NewMessageHandler d ∈ t1 ∧
      newDispatchers t1 = [] ∧ gormOpens t1 = 0 := by
  simp [MessageHandler, MessageHandlerValidator, MessageService, MessageRepository, repository,
    DB, Logger, Tracer, EventDispatcher, hb, hd, serviceDispatchers, newDispatchers, gormOpens]

/-- C4: `NewContainer` returns exactly when the database opens and migrates.
When it returns, one dispatcher `d` has been constructed and stored, the
`Subscribe` calls made so far are exactly the entries of the route map
returned by `listeners.NewMessageListener`, one call per entry, all on `d`
(so with the distinct event types of a Go map each entry is subscribed
exactly once and no other pair is), the `MessageService` given to the
listener was built with `d`, and after any further sequence of container
method calls every `MessageService` built so far was built with `d`, `d` is
still the stored dispatcher, no other dispatcher has been constructed, and a
call of `Container.MessageHandler` returns with a handler whose service was
built with `d`. -/
theorem NewContainer_registers_routes (env : Env H) (projectID : String) :
    ((∃ w, NewContainer env projectID = .ok () w) ↔
      env.gormOpen = true ∧ ∀ m, env.autoMigrate m = true) ∧
    ∀ w, NewContainer env projectID = .ok () w →
      ∃ d, w.container.eventDispatcher = some d ∧
        newDispatchers w.trace = [d] ∧
        subscriptions w.trace = env.routes.map (fun r => (d, r.1, r.2)) ∧
        ((env.routes.map Prod.fst).Nodup →
          (subscriptions w.trace).Nodup ∧
          ∀ x ev hd, (x, ev, hd) ∈ subscriptions w.trace ↔ x = d ∧ (ev, hd) ∈ env.routes) ∧
        serviceDispatchers w.trace = [d] ∧
        .NewMessageListener d ∈ w.trace ∧
        ∀ calls : List Call,
          (runCalls env calls w).world.container.eventDispatcher = some d ∧
          newDispatchers (runCalls env calls w).world.trace = [d] ∧
          (∀ x ∈ serviceDispatchers (runCalls env calls w).world.trace, x = d) ∧
          ∃ w2, MessageHandler env (runCalls env calls w).world = .ok () w2 ∧
            .NewMessageHandler d ∈ w2.trace ∧
            ∀ x ∈ serviceDispatchers w2.trace, x = d := by
  refine ⟨NewContainer_returns_iff env projectID, fun w hw => ?_⟩
  obtain ⟨hopen, hmig⟩ := (NewContainer_returns_iff env projectID).1 ⟨w, hw⟩
  rw [NewContainer_run env projectID hopen hmig] at hw
  cases hw
  have hsub : subscriptions
      (setupTrace projectID ++ env.routes.map fun r => (.Subscribe 1 r.1 r.2 : Event H)) =
      env.routes.map fun r => (1, r.1, r.2) := by
    rw [subscriptions_append, subscriptions_map_subscribe]
    rfl
  have hnew : newDispatchers
      (setupTrace projectID ++ env.routes.map fun r => (.Subscribe 1 r.1 r.2 : Event H)) =
      [1] := by
    simp [newDispatchers, setupTrace, List.filterMap_map, Function.comp_def]
  have hsvc : serviceDispatchers
      (setupTrace projectID ++ env.routes.map fun r => (.Subscribe 1 r.1 r.2 : Event H)) =
      [1] := by
    simp [serviceDispatchers, setupTrace, List.filterMap_map, Function.comp_def]
  refine ⟨1, rfl, hnew, hsub, ?_, hsvc, by simp [setupTrace], fun calls => ?_⟩
  · intro hnd
    simp only [hsub]
    constructor
    · refine (List.Nodup.of_map (fun s : Nat × String × H => s.2.1) ?_)
      simpa [List.map_map, Function.comp_def] using hnd
    · intro x ev hd
      simp only [List.mem_map, Prod.mk.injEq, Prod.exists]
      constructor
      · rintro ⟨a, b, hab, rfl, rfl, rfl⟩
        exact ⟨rfl, hab⟩
      · rintro ⟨rfl, hab⟩
        exact ⟨ev, hd, hab, rfl, rfl, rfl⟩
  · obtain ⟨hd, hb, t, ht, hs, _⟩ := good_runCalls env calls
      ⟨⟨projectID, some 0, some 1⟩, 2,
        setupTrace projectID ++ env.routes.map fun r => .Subscribe 1 r.1 r.2⟩
    obtain ⟨x, y, _⟩ := hs 1 rfl
    have hall : ∀ v ∈ serviceDispatchers (runCalls env calls
        ⟨⟨projectID, some 0, some 1⟩, 2,
          setupTrace projectID ++ env.routes.map fun r => .Subscribe 1 r.1 r.2⟩).world.trace,
        v = 1 := by
      intro v hv
      rw [ht, serviceDispatchers_append, hsvc, List.mem_append] at hv
      rcases hv with hv | hv
      · simpa using hv
      · exact y v hv
    refine ⟨hd 1 rfl, ?_, hall, ?_⟩
    · rw [ht, newDispatchers_append, x, hnew]
      rfl
    · have hd1 := hd 1 rfl
      have hb1 := hb 0 rfl
      revert hd1 hb1 hall
      cases (runCalls env calls
        ⟨⟨projectID, some 0, some 1⟩, 2,
          setupTrace projectID ++ env.routes.map fun r => .Subscribe 1 r.1 r.2⟩).world with
      | mk c n tr =>
        intro hall hd1 hb1
        obtain ⟨t1, hrun, hs1, hm1, _, _⟩ := MessageHandler_stored env c n 0 1 tr hb1 hd1
        refine ⟨_, hrun, List.mem_append_right _ hm1, ?_⟩
        intro v hv
        simp only [serviceDispatchers_append, List.mem_append] at hv
        rcases hv with hv | hv
        · exact hall v hv
        · rw [hs1] at hv
          simpa using hv

/-- C4 witness: the sample container returns, and its two routes are each
subscribed once on the dispatcher at address 1. -/
theorem NewContainer_registers_routes_witness :
    ∃ d, (NewContainer sampleWiring "project").world.container.eventDispatcher = some d ∧
      subscriptions (NewContainer sampleWiring "project").world.trace =
        sampleWiring.routes.map (fun r => (d, r.1, r.2)) :=
  have hrun : NewContainer sampleWiring "project" =
      .ok () (NewContainer sampleWiring "project").world := by
    rw [NewContainer_run sampleWiring "project" rfl (fun _ => rfl)]
    rfl
  (((NewContainer_registers_routes sampleWiring "project").2 _ hrun).imp
    fun _ h => ⟨h.1, h.2.2.1⟩)

/-- C7: `Container.EventDispatcher` is lazily memoized.  With a dispatcher
stored, a call returns it and changes nothing (no construction, same field).
With the field nil, a call that returns has constructed exactly one
dispatcher, stored it in the field and returned it.  Over any sequence of
container method calls from any container, `services.NewEventDispatcher` is
invoked at most once, and not at all when the container started with a
dispatcher stored; a dispatcher once stored stays stored. -/
theorem EventDispatcher_memoized (env : Env H) :
    (∀ w d, w.container.eventDispatcher = some d → EventDispatcher env w = .ok d w) ∧
    (∀ w d w1, w.container.eventDispatcher = none → EventDispatcher env w = .ok d w1 →
      w1.container.eventDispatcher = some d ∧
      newDispatchers w1.trace = newDispatchers w.trace ++ [d] ∧
      EventDispatcher env w1 = .ok d w1) ∧
    (∀ (calls : List Call) (w : World H),
      ∃ t, (runCalls env calls w).world.trace = w.trace ++ t ∧
        (newDispatchers t).length ≤ 1 ∧
        (∀ d, w.container.eventDispatcher = some d →
          newDispatchers t = [] ∧
          (runCalls env calls w).world.container.eventDispatcher = some d)) := by
  refine ⟨EventDispatcher_stored env, fun w d w1 hf h => ?_, fun calls w => ?_⟩
  · obtain ⟨h1, h2⟩ := EventDispatcher_fresh env w w1 d hf h
    exact ⟨h1, h2, EventDispatcher_stored env w1 d h1⟩
  · obtain ⟨hd, _, t, ht, hs, hn⟩ := good_runCalls env calls w
    refine ⟨t, ht, ?_, fun d h => ⟨(hs d h).1, hd d h⟩⟩
    cases hf : w.container.eventDispatcher with
    | none => exact (hn hf).1
    | some d => simp [(hs d hf).1]

/-- C7 witness: in the sample container, which has the dispatcher at address 1
stored, a further call returns that dispatcher and changes nothing. -/
theorem EventDispatcher_memoized_witness :
    EventDispatcher sampleWiring (NewContainer sampleWiring "project").world =
      .ok 1 (NewContainer sampleWiring "project").world :=
  (EventDispatcher_memoized sampleWiring).1 (NewContainer sampleWiring "project").world 1
    (by rw [NewContainer_run sampleWiring "project" rfl (fun _ => rfl)]; rfl)

/-- C8: when `gorm.Open` and the migrations succeed, `NewContainer` returns
having entered `Container.DB` three times (the handle went to the message,
event and event-listener-log repositories, in this order, the same handle each
time), having called `gorm.Open` exactly once and having run exactly the three
migrations `entities.Message`, `repositories.GormEvent`,
`entities.EventListenerLog`, once each and in this order.  After any further
sequence of container method calls the handle is still stored, and a `DB()`
call then returns the stored handle and records nothing but its entry: no
`gorm.Open`, no migration. -/
theorem NewContainer_opens_database_once (env : Env H) (projectID : String)
    (hopen : env.gormOpen = true) (hmig : ∀ m, env.autoMigrate m = true) :
    ∃ w db, NewContainer env projectID = .ok () w ∧
      dbCalls w.trace = 3 ∧
      gormOpens w.trace = 1 ∧
      migrations w.trace = [.Message, .GormEvent, .EventListenerLog] ∧
      repositories w.trace = [(.Message, db), (.Event, db), (.EventListenerLog, db)] ∧
      w.container.db = some db ∧
      ∀ calls : List Call,
        (runCalls env calls w).world.container.db = some db ∧
        DB env (runCalls env calls w).world =
          .ok db { (runCalls env calls w).world with
            trace := (runCalls env calls w).world.trace ++ [.DB] } := by
  refine ⟨_, 0, NewContainer_run env projectID hopen hmig, ?_, ?_, ?_, ?_, rfl, fun calls => ?_⟩
  · simp [dbCalls, setupTrace, List.filter_map, Function.comp_def]
  · simp [gormOpens, setupTrace, List.filter_map, Function.comp_def]
  · simp [migrations, setupTrace, List.filterMap_map, Function.comp_def]
  · simp [repositories, setupTrace, List.filterMap_map, Function.comp_def]
  · have hdb := (good_runCalls env calls
      ⟨⟨projectID, some 0, some 1⟩, 2,
        setupTrace projectID ++ env.routes.map fun r => .Subscribe 1 r.1 r.2⟩).db 0 rfl
    exact ⟨hdb, DB_stored env _ 0 hdb⟩

/-- C8 witness: the sample environment opens and migrates, so the sample
container is built with one `gorm.Open` and three `DB()` entries. -/
theorem NewContainer_opens_database_once_witness :
    ∃ w db, NewContainer sampleWiring "project" = .ok () w ∧
      dbCalls w.trace = 3 ∧ gormOpens w.trace = 1 ∧
      migrations w.trace = [.Message, .GormEvent, .EventListenerLog] ∧
      repositories w.trace = [(.Message, db), (.Event, db), (.EventListenerLog, db)] :=
  (NewContainer_opens_database_once sampleWiring "project" rfl (fun _ => rfl)).imp
    fun _ h => h.imp fun _ h => ⟨h.1, h.2.1, h.2.2.1, h.2.2.2.1, h.2.2.2.2.1⟩

end DI

end HttpSms
